import Mathlib

set_option linter.unusedVariables false

/-!
# Life-insurance policy registry: shallow embedding and verification

Shallow embedding of `src/src/index.ts` (an Azle canister managing life
insurance policy records) together with proofs about its six operations:
`createInsurancePolicy`, `getInsurancePolicy`, `getAllInsurancePolicies`,
`updateInsurancePolicy`, `deleteInsurancePolicy` and `fileClaim`.

Modelling decisions, all driven by the TypeScript source:

* `Principal` values are modelled by their textual representation, a
  `String`.  The dynamic guard `!id || typeof id !== "string"` on a string
  argument reduces to the test `id = ""` (the empty string is the only
  falsy string, and `typeof` of a string is always `"string"`).  The
  caller-identity guard in `getAllInsurancePolicies` is different: it
  applies the same `typeof ... !== "string"` test to `ic.caller()`, which
  is a `Principal` object, not a string, so that guard fires on every
  call; see the definition of `getAllInsurancePolicies` below.
* `nat64` timestamps are modelled by `Nat`; the registry only stores and
  compares them, it never performs wrap-around arithmetic.
* `float64` amounts (`coverageAmount`, `premiumAmount`) are opaque data the
  registry stores and copies but never computes with, so their carrier is
  modelled by `Int`.
* The `StableBTreeMap` is modelled as an association list with
  replace-on-insert semantics (`Store`); the claims under study only depend
  on lookup/insert/remove/values behaviour, not on key ordering.
* The external collaborators (`ic.time()`, `ic.caller()`, `uuidv4()`) are
  passed to each operation as explicit arguments `now`, `caller`,
  `freshId`, mirroring the ambient values available to a canister method.
* A candid payload can in principle lack fields, and the source guards
  against that with its `requiredFields` loop; payloads are therefore
  modelled with one `Option` per field (`RawPayload`), and the loop becomes
  a match that reports the first missing field in the source's order.
-/

namespace LifeInsurance

/-- The persisted entity, `LifeInsurancePolicy` in `src/src/index.ts`. -/
structure LifeInsurancePolicy where
  id : String
  policyHolder : String
  coverageAmount : Int
  premiumAmount : Int
  policyStartDate : Nat
  policyEndDate : Nat
  isClaimed : Bool
  createdAt : Nat
  updatedAt : Option Nat
  deriving Repr, DecidableEq

/-- The input shape for create/update, `LifeInsurancePolicyPayload` in the
source: all record fields except `id`, `createdAt`, `updatedAt`. -/
structure LifeInsurancePolicyPayload where
  policyHolder : String
  coverageAmount : Int
  premiumAmount : Int
  policyStartDate : Nat
  policyEndDate : Nat
  isClaimed : Bool
  deriving Repr, DecidableEq

/-- A payload as it arrives over the wire: every field possibly absent.
The source's `requiredFields` loop checks `field in payload`, which is
presence of the field; `none` models absence. -/
structure RawPayload where
  policyHolder : Option String
  coverageAmount : Option Int
  premiumAmount : Option Int
  policyStartDate : Option Nat
  policyEndDate : Option Nat
  isClaimed : Option Bool
  deriving Repr, DecidableEq

/-- A complete payload viewed as a raw one: every field present. -/
def RawPayload.ofPayload (q : LifeInsurancePolicyPayload) : RawPayload :=
  ⟨some q.policyHolder, some q.coverageAmount, some q.premiumAmount,
   some q.policyStartDate, some q.policyEndDate, some q.isClaimed⟩

/-- The result type of every operation, `Result<T, string>` from azle. -/
inductive Res (α : Type) where
  | Ok : α → Res α
  | Err : String → Res α
  deriving Repr, DecidableEq

/-- The `insurancePolicyStorage` `StableBTreeMap<string, LifeInsurancePolicy>`,
modelled as an association list from policy id to record. -/
abbrev Store : Type := List (String × LifeInsurancePolicy)

/-- Model of `StableBTreeMap.get`: the record stored at `k`, if any. -/
def Store.get : Store → String → Option LifeInsurancePolicy
  | [], _ => none
  | (k', v) :: rest, k => if k' = k then some v else Store.get rest k

/-- Model of `StableBTreeMap.insert`: insert or overwrite the record at `k`. -/
def Store.insert : Store → String → LifeInsurancePolicy → Store
  | [], k, v => [(k, v)]
  | (k', v') :: rest, k, v =>
      if k' = k then (k, v) :: rest else (k', v') :: Store.insert rest k v

/-- Model of `StableBTreeMap.remove`: drop every entry stored at `k`. -/
def Store.remove : Store → String → Store
  | [], _ => []
  | (k', v') :: rest, k =>
      if k' = k then Store.remove rest k else (k', v') :: Store.remove rest k

/-- Model of `StableBTreeMap.values`: every stored record. -/
def Store.values (s : Store) : List LifeInsurancePolicy := s.map (·.2)

/-- The `NotFound` message the source builds for a missing id. -/
def notFoundMsg (id : String) : String :=
  "Insurance Policy with ID=" ++ id ++ " not found."

/-- The `Conflict` message the source builds for a double claim filing. -/
def conflictMsg (id : String) : String :=
  "Claim for Insurance Policy with ID=" ++ id ++ " has already been filed."

/-- The `Validation` message the source builds for a missing payload field. -/
def missingFieldMsg (field : String) : String :=
  "Missing required field: " ++ field ++ "."

/-- Model of `createInsurancePolicy(payload)` (src/src/index.ts:44-68): check the
required fields in order, then build the record from a fresh id, the
current time, an absent `updatedAt` and the payload fields, insert it under
its own id, and return it.  `caller` is the ambient `ic.caller()`, unused
by this operation. -/
def createInsurancePolicy (caller freshId : String) (now : Nat)
    (payload : RawPayload) (store : Store) :
    Res LifeInsurancePolicy × Store :=
  match payload.policyHolder, payload.coverageAmount, payload.premiumAmount,
        payload.policyStartDate, payload.policyEndDate, payload.isClaimed with
  | none, _, _, _, _, _ => (.Err (missingFieldMsg "policyHolder"), store)
  | _, none, _, _, _, _ => (.Err (missingFieldMsg "coverageAmount"), store)
  | _, _, none, _, _, _ => (.Err (missingFieldMsg "premiumAmount"), store)
  | _, _, _, none, _, _ => (.Err (missingFieldMsg "policyStartDate"), store)
  | _, _, _, _, none, _ => (.Err (missingFieldMsg "policyEndDate"), store)
  | _, _, _, _, _, none => (.Err (missingFieldMsg "isClaimed"), store)
  | some policyHolder, some coverageAmount, some premiumAmount,
    some policyStartDate, some policyEndDate, some isClaimed =>
      let insurancePolicy : LifeInsurancePolicy :=
        { id := freshId, policyHolder, coverageAmount, premiumAmount,
          policyStartDate, policyEndDate, isClaimed,
          createdAt := now, updatedAt := none }
      (.Ok insurancePolicy,
       Store.insert store insurancePolicy.id insurancePolicy)

/-- Model of `getInsurancePolicy(id)` (src/src/index.ts:73-83): validate the id,
then look it up.  Read-only: no store is returned. -/
def getInsurancePolicy (caller id : String) (store : Store) :
    Res LifeInsurancePolicy :=
  if id = "" then .Err "Invalid ID format."
  else
    match Store.get store id with
    | some policy => .Ok policy
    | none => .Err (notFoundMsg id)

/-- Model of `getAllInsurancePolicies()` (src/src/index.ts:87-97).  The
source reads `currentUserId = ic.caller()` — a `Principal` object — and
then guards with `!currentUserId || typeof currentUserId !== "string"`.
An object is truthy and its `typeof` is `"object"`, never `"string"`, so
the guard fires on every call and the function always returns
`Err("Invalid current user ID.")`; the filter over
`insurancePolicyStorage.values()` below the guard is unreachable (and
would compare `Principal` objects with `===`, reference equality, if it
were reached).  The `caller` and `store` parameters are kept for the
operation's interface but cannot influence the result. -/
def getAllInsurancePolicies (caller : String) (store : Store) :
    Res (List LifeInsurancePolicy) :=
  .Err "Invalid current user ID."

/-- Model of `updateInsurancePolicy(id, payload)` (src/src/index.ts:101-132):
validate the id, check the required fields in order, look up the existing
record, merge the payload over it (payload fields overwrite; `id` and
`createdAt` are not in the payload and survive), stamp `updatedAt`, and
insert the merged record under its own id. -/
def updateInsurancePolicy (caller id : String) (payload : RawPayload)
    (now : Nat) (store : Store) : Res LifeInsurancePolicy × Store :=
  if id = "" then (.Err "Invalid ID format.", store)
  else
    match payload.policyHolder, payload.coverageAmount, payload.premiumAmount,
          payload.policyStartDate, payload.policyEndDate, payload.isClaimed with
    | none, _, _, _, _, _ => (.Err (missingFieldMsg "policyHolder"), store)
    | _, none, _, _, _, _ => (.Err (missingFieldMsg "coverageAmount"), store)
    | _, _, none, _, _, _ => (.Err (missingFieldMsg "premiumAmount"), store)
    | _, _, _, none, _, _ => (.Err (missingFieldMsg "policyStartDate"), store)
    | _, _, _, _, none, _ => (.Err (missingFieldMsg "policyEndDate"), store)
    | _, _, _, _, _, none => (.Err (missingFieldMsg "isClaimed"), store)
    | some policyHolder, some coverageAmount, some premiumAmount,
      some policyStartDate, some policyEndDate, some isClaimed =>
        match Store.get store id with
        | some existingPolicy =>
            let updatedPolicy : LifeInsurancePolicy :=
              { existingPolicy with
                policyHolder, coverageAmount, premiumAmount,
                policyStartDate, policyEndDate, isClaimed,
                updatedAt := some now }
            (.Ok updatedPolicy,
             Store.insert store updatedPolicy.id updatedPolicy)
        | none => (.Err (notFoundMsg id), store)

/-- Model of `deleteInsurancePolicy(id)` (src/src/index.ts:136-149): validate the
id, look it up, remove the entry and return the removed record. -/
def deleteInsurancePolicy (caller id : String) (store : Store) :
    Res LifeInsurancePolicy × Store :=
  if id = "" then (.Err "Invalid ID format.", store)
  else
    match Store.get store id with
    | some existingPolicy => (.Ok existingPolicy, Store.remove store id)
    | none => (.Err (notFoundMsg id), store)

/-- Model of `fileClaim(id)` (src/src/index.ts:153-177): validate the id, look it
up; reject with a conflict when already claimed; otherwise set
`isClaimed := true`, stamp `updatedAt`, and insert the updated record under
its own id. -/
def fileClaim (caller id : String) (now : Nat) (store : Store) :
    Res LifeInsurancePolicy × Store :=
  if id = "" then (.Err "Invalid ID format.", store)
  else
    match Store.get store id with
    | some policy =>
        if policy.isClaimed then (.Err (conflictMsg id), store)
        else
          let updatedPolicy : LifeInsurancePolicy :=
            { policy with isClaimed := true, updatedAt := some now }
          (.Ok updatedPolicy,
           Store.insert store updatedPolicy.id updatedPolicy)
    | none => (.Err (notFoundMsg id), store)

/-! ## Store lemmas -/

theorem Store.get_insert_self (s : Store) (k : String) (v : LifeInsurancePolicy) :
    Store.get (Store.insert s k v) k = some v := by
  induction s with
  | nil => simp [Store.insert, Store.get]
  | cons hd tl ih =>
      obtain ⟨k', v'⟩ := hd
      by_cases h : k' = k <;> simp [Store.insert, Store.get, h, ih]

theorem Store.get_insert_ne (s : Store) (k k' : String) (v : LifeInsurancePolicy)
    (h : k' ≠ k) : Store.get (Store.insert s k v) k' = Store.get s k' := by
  have h' : ¬k = k' := fun e => h e.symm
  induction s with
  | nil => simp [Store.insert, Store.get, h']
  | cons hd tl ih =>
      obtain ⟨k₀, v₀⟩ := hd
      by_cases h₀ : k₀ = k
      · subst h₀
        simp [Store.insert, Store.get, h']
      · by_cases h₁ : k₀ = k' <;> simp [Store.insert, Store.get, h₀, h₁, h, ih]

theorem Store.get_remove_self (s : Store) (k : String) :
    Store.get (Store.remove s k) k = none := by
  induction s with
  | nil => simp [Store.remove, Store.get]
  | cons hd tl ih =>
      obtain ⟨k', v'⟩ := hd
      by_cases h : k' = k <;> simp [Store.remove, Store.get, h, ih]

theorem Store.get_remove_ne (s : Store) (k k' : String) (h : k' ≠ k) :
    Store.get (Store.remove s k) k' = Store.get s k' := by
  have h' : ¬k = k' := fun e => h e.symm
  induction s with
  | nil => simp [Store.remove, Store.get]
  | cons hd tl ih =>
      obtain ⟨k₀, v₀⟩ := hd
      by_cases h₀ : k₀ = k
      · subst h₀
        simp [Store.remove, Store.get, h', ih]
      · by_cases h₁ : k₀ = k' <;> simp [Store.remove, Store.get, h₀, h₁, h, ih]

theorem Store.insert_of_get_none (s : Store) (k : String) (v : LifeInsurancePolicy)
    (h : Store.get s k = none) : Store.insert s k v = s ++ [(k, v)] := by
  induction s with
  | nil => simp [Store.insert]
  | cons hd tl ih =>
      obtain ⟨k', v'⟩ := hd
      by_cases h' : k' = k
      · simp [Store.get, h'] at h
      · simp [Store.get, h'] at h
        simp [Store.insert, h', ih h]

theorem Store.length_insert_of_get_none (s : Store) (k : String)
    (v : LifeInsurancePolicy) (h : Store.get s k = none) :
    (Store.insert s k v).length = s.length + 1 := by
  rw [Store.insert_of_get_none s k v h]
  simp

theorem Store.length_insert_of_get_some (s : Store) (k : String)
    (v w : LifeInsurancePolicy) (h : Store.get s k = some w) :
    (Store.insert s k v).length = s.length := by
  induction s with
  | nil => simp [Store.get] at h
  | cons hd tl ih =>
      obtain ⟨k', v'⟩ := hd
      by_cases h' : k' = k
      · simp [Store.insert, h']
      · simp [Store.get, h'] at h
        simp [Store.insert, h', ih h]

theorem Store.mem_values (s : Store) (r : LifeInsurancePolicy) :
    r ∈ Store.values s ↔ ∃ k, (k, r) ∈ s := by
  simp only [Store.values, List.mem_map]
  constructor
  · rintro ⟨⟨k, v⟩, hmem, rfl⟩
    exact ⟨k, hmem⟩
  · rintro ⟨k, hmem⟩
    exact ⟨(k, r), hmem, rfl⟩

/-- The record `createInsurancePolicy` builds (src/src/index.ts:60-65): a
fresh id, `createdAt` from the clock, `updatedAt` absent, and the payload
fields. -/
def newPolicy (freshId : String) (now : Nat)
    (q : LifeInsurancePolicyPayload) : LifeInsurancePolicy :=
  { id := freshId, policyHolder := q.policyHolder,
    coverageAmount := q.coverageAmount, premiumAmount := q.premiumAmount,
    policyStartDate := q.policyStartDate, policyEndDate := q.policyEndDate,
    isClaimed := q.isClaimed, createdAt := now, updatedAt := none }

/-- The record `updateInsurancePolicy` builds (src/src/index.ts:121-125):
the existing record with every payload field overwritten and `updatedAt`
stamped; `id` and `createdAt` are not payload fields and survive. -/
def mergedPolicy (r : LifeInsurancePolicy) (q : LifeInsurancePolicyPayload)
    (now : Nat) : LifeInsurancePolicy :=
  { r with
      policyHolder := q.policyHolder,
      coverageAmount := q.coverageAmount, premiumAmount := q.premiumAmount,
      policyStartDate := q.policyStartDate, policyEndDate := q.policyEndDate,
      isClaimed := q.isClaimed, updatedAt := some now }

/-! ## Concrete sample data

Concrete payloads, records and stores (values from the scenario in the
spec, §8) used by the witness statements below. -/

/-- The payload of the spec's §8 scenario, with `policyHolder` "alice". -/
def alicePayload : LifeInsurancePolicyPayload :=
  { policyHolder := "alice", coverageAmount := 100000, premiumAmount := 500,
    policyStartDate := 1000, policyEndDate := 2000, isClaimed := false }

/-- An unclaimed record for "alice" stored under id "p1". -/
def samplePolicy : LifeInsurancePolicy :=
  { id := "p1", policyHolder := "alice", coverageAmount := 100000,
    premiumAmount := 500, policyStartDate := 1000, policyEndDate := 2000,
    isClaimed := false, createdAt := 5, updatedAt := none }

/-- The same record after a successful claim filing at time 7. -/
def claimedPolicy : LifeInsurancePolicy :=
  { samplePolicy with isClaimed := true, updatedAt := some 7 }

/-- A one-record store holding the unclaimed `samplePolicy`. -/
def sampleStore : Store := [("p1", samplePolicy)]

/-- A one-record store holding the claimed `claimedPolicy`. -/
def claimedStore : Store := [("p1", claimedPolicy)]

/-! ## Claim theorems -/

/-- C3: for a non-empty id stored in the store (under the record's own id):
if the record is already claimed, `fileClaim` returns the conflict failure
and leaves the store unchanged; if it is unclaimed, `fileClaim` sets
`isClaimed := true` and `updatedAt := now`, persists the record at the same
key and returns it, and a second `fileClaim` on the same id then returns
the conflict failure and leaves the store (hence `isClaimed` and
`updatedAt`) unchanged from the first call's result. -/
theorem fileClaim_state_machine (caller caller' id : String) (now now' : Nat)
    (s : Store) (r : LifeInsurancePolicy)
    (hid : id ≠ "") (hget : Store.get s id = some r) (hkey : r.id = id) :
    (r.isClaimed = true → fileClaim caller id now s = (.Err (conflictMsg id), s))
    ∧ (r.isClaimed = false →
        fileClaim caller id now s =
          (.Ok { r with isClaimed := true, updatedAt := some now },
           Store.insert s id { r with isClaimed := true, updatedAt := some now })
        ∧ fileClaim caller' id now'
            (Store.insert s id { r with isClaimed := true, updatedAt := some now }) =
          (.Err (conflictMsg id),
           Store.insert s id { r with isClaimed := true, updatedAt := some now })) := by
  constructor
  · intro hc
    simp [fileClaim, hid, hget, hc]
  · intro hc
    constructor
    · simp [fileClaim, hid, hget, hc, hkey]
    · simp [fileClaim, hid, Store.get_insert_self]

/-- C3 witness: filing a claim on the stored unclaimed record succeeds and
marks it claimed; filing again reports the conflict and changes nothing. -/
theorem fileClaim_state_machine_witness :
    fileClaim "alice" "p1" 7 sampleStore =
      (.Ok claimedPolicy, Store.insert sampleStore "p1" claimedPolicy)
    ∧ fileClaim "bob" "p1" 9 (Store.insert sampleStore "p1" claimedPolicy) =
      (.Err (conflictMsg "p1"), Store.insert sampleStore "p1" claimedPolicy) :=
  (fileClaim_state_machine "alice" "bob" "p1" 7 9 sampleStore samplePolicy
    (by decide) (by decide) (by decide)).2 (by decide)

/-- C8: deleting a present record (with a non-empty id) returns it exactly
as stored, removes the entry (other keys untouched), and a subsequent
`getInsurancePolicy` on that id reports `NotFound`. -/
theorem delete_removes (caller caller' id : String) (s : Store)
    (r : LifeInsurancePolicy) (hid : id ≠ "") (hget : Store.get s id = some r) :
    deleteInsurancePolicy caller id s = (.Ok r, Store.remove s id)
    ∧ Store.get (Store.remove s id) id = none
    ∧ (∀ k, k ≠ id → Store.get (Store.remove s id) k = Store.get s k)
    ∧ getInsurancePolicy caller' id (Store.remove s id) = .Err (notFoundMsg id) := by
  refine ⟨by simp [deleteInsurancePolicy, hid, hget],
          Store.get_remove_self s id,
          fun k hk => Store.get_remove_ne s id k hk, ?_⟩
  simp [getInsurancePolicy, hid, Store.get_remove_self]

/-- C8 witness: deleting "p1" from the sample store returns the stored
record and a following get reports `NotFound`. -/
theorem delete_removes_witness :
    deleteInsurancePolicy "alice" "p1" sampleStore =
      (.Ok samplePolicy, Store.remove sampleStore "p1")
    ∧ getInsurancePolicy "bob" "p1" (Store.remove sampleStore "p1") =
      .Err (notFoundMsg "p1") :=
  ⟨(delete_removes "alice" "bob" "p1" sampleStore samplePolicy
      (by decide) (by decide)).1,
   (delete_removes "alice" "bob" "p1" sampleStore samplePolicy
      (by decide) (by decide)).2.2.2⟩

/-- C6: for a non-empty id absent from the store, `get`, `update` (with a
complete payload), `delete` and `fileClaim` each return the `NotFound`
failure and leave the store unchanged; moreover every failure outcome of
any mutating operation leaves the store exactly unchanged. -/
theorem absent_notFound_and_failures_keep_store (caller id : String)
    (q : LifeInsurancePolicyPayload) (now : Nat) (s : Store)
    (hid : id ≠ "") (habs : Store.get s id = none) :
    getInsurancePolicy caller id s = .Err (notFoundMsg id)
    ∧ updateInsurancePolicy caller id (RawPayload.ofPayload q) now s =
        (.Err (notFoundMsg id), s)
    ∧ deleteInsurancePolicy caller id s = (.Err (notFoundMsg id), s)
    ∧ fileClaim caller id now s = (.Err (notFoundMsg id), s)
    ∧ (∀ (c f : String) (n : Nat) (p : RawPayload) (t : Store) (e : String),
        (createInsurancePolicy c f n p t).1 = .Err e →
          (createInsurancePolicy c f n p t).2 = t)
    ∧ (∀ (c i : String) (p : RawPayload) (n : Nat) (t : Store) (e : String),
        (updateInsurancePolicy c i p n t).1 = .Err e →
          (updateInsurancePolicy c i p n t).2 = t)
    ∧ (∀ (c i : String) (t : Store) (e : String),
        (deleteInsurancePolicy c i t).1 = .Err e →
          (deleteInsurancePolicy c i t).2 = t)
    ∧ (∀ (c i : String) (n : Nat) (t : Store) (e : String),
        (fileClaim c i n t).1 = .Err e → (fileClaim c i n t).2 = t) := by
  refine ⟨by simp [getInsurancePolicy, hid, habs],
          by simp [updateInsurancePolicy, RawPayload.ofPayload, hid, habs],
          by simp [deleteInsurancePolicy, hid, habs],
          by simp [fileClaim, hid, habs], ?_, ?_, ?_, ?_⟩
  · intro c f n p t e h
    rcases p with ⟨ph, ca, pa, sd, ed, cl⟩
    cases ph <;> cases ca <;> cases pa <;> cases sd <;> cases ed <;> cases cl <;>
      simp [createInsurancePolicy] at h ⊢
  · intro c i p n t e h
    by_cases hi : i = ""
    · simp [updateInsurancePolicy, hi]
    · rcases p with ⟨ph, ca, pa, sd, ed, cl⟩
      cases ph <;> cases ca <;> cases pa <;> cases sd <;> cases ed <;> cases cl <;>
        cases hg : Store.get t i <;>
          simp [updateInsurancePolicy, hi, hg] at h ⊢
  · intro c i t e h
    by_cases hi : i = ""
    · simp [deleteInsurancePolicy, hi]
    · cases hg : Store.get t i <;>
        simp [deleteInsurancePolicy, hi, hg] at h ⊢
  · intro c i n t e h
    by_cases hi : i = ""
    · simp [fileClaim, hi]
    · cases hg : Store.get t i with
      | none => simp [fileClaim, hi, hg]
      | some r =>
          by_cases hc : r.isClaimed <;> simp [fileClaim, hi, hg, hc] at h ⊢

/-- C6 witness: on a store not containing "zzz", all four lookups report
`NotFound` for "zzz" and leave the store unchanged. -/
theorem absent_notFound_witness :
    getInsurancePolicy "alice" "zzz" sampleStore = .Err (notFoundMsg "zzz")
    ∧ fileClaim "alice" "zzz" 3 sampleStore = (.Err (notFoundMsg "zzz"), sampleStore) :=
  ⟨(absent_notFound_and_failures_keep_store "alice" "zzz" alicePayload 3 sampleStore
      (by decide) (by decide)).1,
   (absent_notFound_and_failures_keep_store "alice" "zzz" alicePayload 3 sampleStore
      (by decide) (by decide)).2.2.2.1⟩

/-- C5: a valid (complete) payload always creates successfully: the result
is the new record with `createdAt` from the clock and `updatedAt` absent,
exactly one entry is added to the store (other keys untouched), and a
subsequent `getInsurancePolicy` on the fresh id returns the created
record.  Freshness of `freshId` is the IdGenerator's collision-freedom
contract; non-emptiness holds for every generated UUID. -/
theorem create_then_get (caller caller' freshId : String) (now : Nat)
    (q : LifeInsurancePolicyPayload) (s : Store)
    (hfresh : Store.get s freshId = none) (hne : freshId ≠ "") :
    createInsurancePolicy caller freshId now (RawPayload.ofPayload q) s =
      (.Ok (newPolicy freshId now q), Store.insert s freshId (newPolicy freshId now q))
    ∧ (newPolicy freshId now q).id = freshId
    ∧ (newPolicy freshId now q).createdAt = now
    ∧ (newPolicy freshId now q).updatedAt = none
    ∧ (Store.insert s freshId (newPolicy freshId now q)).length = s.length + 1
    ∧ Store.get (Store.insert s freshId (newPolicy freshId now q)) freshId =
        some (newPolicy freshId now q)
    ∧ (∀ k, k ≠ freshId →
        Store.get (Store.insert s freshId (newPolicy freshId now q)) k = Store.get s k)
    ∧ getInsurancePolicy caller' freshId (Store.insert s freshId (newPolicy freshId now q)) =
        .Ok (newPolicy freshId now q) := by
  refine ⟨rfl, rfl, rfl, rfl,
          Store.length_insert_of_get_none s freshId _ hfresh,
          Store.get_insert_self s freshId _,
          fun k hk => Store.get_insert_ne s freshId k _ hk, ?_⟩
  simp [getInsurancePolicy, hne, Store.get_insert_self]

/-- C5 witness: creating from the sample payload in the empty store yields
the expected record, and getting it back returns the same record. -/
theorem create_then_get_witness :
    createInsurancePolicy "alice" "u1" 5 (RawPayload.ofPayload alicePayload) [] =
      (.Ok (newPolicy "u1" 5 alicePayload), Store.insert [] "u1" (newPolicy "u1" 5 alicePayload))
    ∧ getInsurancePolicy "bob" "u1" (Store.insert [] "u1" (newPolicy "u1" 5 alicePayload)) =
      .Ok (newPolicy "u1" 5 alicePayload) :=
  ⟨(create_then_get "alice" "bob" "u1" 5 alicePayload [] (by decide) (by decide)).1,
   (create_then_get "alice" "bob" "u1" 5 alicePayload [] (by decide) (by decide)).2.2.2.2.2.2.2⟩

/-- C4: updating a present record (stored under its own non-empty id) with
a complete payload returns the merged record, which keeps `id` and
`createdAt` and carries `updatedAt = now` (a value ≥ the previous
`createdAt`/`updatedAt` by the Clock's monotonicity, taken as hypotheses),
and overwrites the store entry in place: same key, other keys untouched,
same number of entries. -/
theorem update_preserves_id_createdAt (caller id : String)
    (q : LifeInsurancePolicyPayload) (now : Nat) (s : Store)
    (r : LifeInsurancePolicy)
    (hid : id ≠ "") (hget : Store.get s id = some r) (hkey : r.id = id)
    (hc : r.createdAt ≤ now) (hu : ∀ t, r.updatedAt = some t → t ≤ now) :
    updateInsurancePolicy caller id (RawPayload.ofPayload q) now s =
      (.Ok (mergedPolicy r q now), Store.insert s id (mergedPolicy r q now))
    ∧ (mergedPolicy r q now).id = r.id
    ∧ (mergedPolicy r q now).createdAt = r.createdAt
    ∧ (mergedPolicy r q now).updatedAt = some now
    ∧ r.createdAt ≤ now
    ∧ Store.get (Store.insert s id (mergedPolicy r q now)) id =
        some (mergedPolicy r q now)
    ∧ (∀ k, k ≠ id →
        Store.get (Store.insert s id (mergedPolicy r q now)) k = Store.get s k)
    ∧ (Store.insert s id (mergedPolicy r q now)).length = s.length := by
  refine ⟨?_, rfl, rfl, rfl, hc,
          Store.get_insert_self s id _,
          fun k hk => Store.get_insert_ne s id k _ hk,
          Store.length_insert_of_get_some s id _ r hget⟩
  simp [updateInsurancePolicy, RawPayload.ofPayload, hid, hget, mergedPolicy, hkey]

/-- C4 witness: updating the stored sample record at time 9 returns the
merged record with the original `id` and `createdAt` and `updatedAt = 9`,
stored at the same key. -/
theorem update_preserves_id_createdAt_witness :
    updateInsurancePolicy "bob" "p1" (RawPayload.ofPayload alicePayload) 9 sampleStore =
      (.Ok (mergedPolicy samplePolicy alicePayload 9),
       Store.insert sampleStore "p1" (mergedPolicy samplePolicy alicePayload 9))
    ∧ (mergedPolicy samplePolicy alicePayload 9).createdAt = samplePolicy.createdAt :=
  ⟨(update_preserves_id_createdAt "bob" "p1" alicePayload 9 sampleStore samplePolicy
      (by decide) (by decide) (by decide) (by decide)
      (fun t h => by simp [samplePolicy] at h)).1,
   (update_preserves_id_createdAt "bob" "p1" alicePayload 9 sampleStore samplePolicy
      (by decide) (by decide) (by decide) (by decide)
      (fun t h => by simp [samplePolicy] at h)).2.2.1⟩

/-- C2: the claim (and the spec) say `getAllInsurancePolicies` never
fails and returns exactly the caller's records, but the guard at
src/src/index.ts:91 tests `typeof currentUserId !== "string"` on the
`Principal` object returned by `ic.caller()`, whose `typeof` is
`"object"`; the guard therefore fires on every call and the operation
always returns the failure `"Invalid current user ID."` — in particular
for the owner "alice" on the sample store holding her record, where the
claim demands a successful, non-empty filtered result. -/
theorem getAll_always_fails :
    getAllInsurancePolicies "alice" sampleStore = .Err "Invalid current user ID."
    ∧ ∀ (caller : String) (s : Store),
        getAllInsurancePolicies caller s = .Err "Invalid current user ID." :=
  ⟨rfl, fun _ _ => rfl⟩

/-- C1 counterexample: `updateInsurancePolicy` spreads the payload — whose
required fields include `isClaimed` — over the existing record, so a
successful update with `isClaimed = false` in the payload takes a claimed
record back to `isClaimed = false`: the claimed sample record, updated with
the (valid, `isClaimed = false`) sample payload, ends up unclaimed. -/
theorem isClaimed_not_monotonic_counterexample :
    claimedPolicy.isClaimed = true
    ∧ (updateInsurancePolicy "alice" "p1" (RawPayload.ofPayload alicePayload) 9
        claimedStore).1 = .Ok (mergedPolicy claimedPolicy alicePayload 9)
    ∧ Store.get (updateInsurancePolicy "alice" "p1" (RawPayload.ofPayload alicePayload) 9
        claimedStore).2 "p1" = some (mergedPolicy claimedPolicy alicePayload 9)
    ∧ (mergedPolicy claimedPolicy alicePayload 9).isClaimed = false := by
  decide

/-- C1 amended: `isClaimed` is monotonic under `fileClaim` — a file-claim
attempt on a record with `isClaimed = true` is rejected with the conflict
failure and leaves the store unchanged — but `updateInsurancePolicy`
overwrites `isClaimed` with the payload's `isClaimed` value, so a
successful update can take a claimed record back to `isClaimed = false`. -/
theorem isClaimed_monotonic_under_fileClaim (caller id : String) (now : Nat)
    (s : Store) (r : LifeInsurancePolicy)
    (hid : id ≠ "") (hget : Store.get s id = some r) (hc : r.isClaimed = true) :
    fileClaim caller id now s = (.Err (conflictMsg id), s)
    ∧ ∀ q : LifeInsurancePolicyPayload,
        (updateInsurancePolicy caller id (RawPayload.ofPayload q) now s).1 =
          .Ok (mergedPolicy r q now)
        ∧ (mergedPolicy r q now).isClaimed = q.isClaimed := by
  refine ⟨by simp [fileClaim, hid, hget, hc], fun q => ⟨?_, rfl⟩⟩
  simp [updateInsurancePolicy, RawPayload.ofPayload, hid, hget, mergedPolicy]

/-- C1 amended witness: filing a claim on the already-claimed sample record
reports the conflict and leaves the store unchanged, and updating it with
the sample payload yields a record whose `isClaimed` is the payload's. -/
theorem isClaimed_monotonic_under_fileClaim_witness :
    fileClaim "alice" "p1" 9 claimedStore = (.Err (conflictMsg "p1"), claimedStore)
    ∧ (updateInsurancePolicy "alice" "p1" (RawPayload.ofPayload alicePayload) 9
        claimedStore).1 = .Ok (mergedPolicy claimedPolicy alicePayload 9) :=
  ⟨(isClaimed_monotonic_under_fileClaim "alice" "p1" 9 claimedStore claimedPolicy
      (by decide) (by decide) (by decide)).1,
   ((isClaimed_monotonic_under_fileClaim "alice" "p1" 9 claimedStore claimedPolicy
      (by decide) (by decide) (by decide)).2 alicePayload).1⟩

/-- The proposition that `f` names a payload field absent from `p`. -/
def RawPayload.fieldMissing (p : RawPayload) (f : String) : Prop :=
  (f = "policyHolder" ∧ p.policyHolder = none) ∨
  (f = "coverageAmount" ∧ p.coverageAmount = none) ∨
  (f = "premiumAmount" ∧ p.premiumAmount = none) ∨
  (f = "policyStartDate" ∧ p.policyStartDate = none) ∨
  (f = "policyEndDate" ∧ p.policyEndDate = none) ∨
  (f = "isClaimed" ∧ p.isClaimed = none)

/-- C7: a payload missing at least one required field is rejected by both
`createInsurancePolicy` and `updateInsurancePolicy` (called on a non-empty
id) with the validation failure naming a field that is indeed missing —
the first missing one in the source's `requiredFields` order — and the
store is left unchanged by both. -/
theorem missing_field_rejected (caller freshId id : String) (now : Nat)
    (p : RawPayload) (s : Store) (hid : id ≠ "")
    (hmiss : p.policyHolder = none ∨ p.coverageAmount = none ∨
             p.premiumAmount = none ∨ p.policyStartDate = none ∨
             p.policyEndDate = none ∨ p.isClaimed = none) :
    ∃ f, RawPayload.fieldMissing p f
      ∧ createInsurancePolicy caller freshId now p s = (.Err (missingFieldMsg f), s)
      ∧ updateInsurancePolicy caller id p now s = (.Err (missingFieldMsg f), s) := by
  rcases p with ⟨ph, ca, pa, sd, ed, cl⟩
  cases ph with
  | none =>
      exact ⟨"policyHolder", Or.inl ⟨rfl, rfl⟩, by simp [createInsurancePolicy],
             by simp [updateInsurancePolicy, hid]⟩
  | some vph =>
  cases ca with
  | none =>
      exact ⟨"coverageAmount", Or.inr (Or.inl ⟨rfl, rfl⟩), by simp [createInsurancePolicy],
             by simp [updateInsurancePolicy, hid]⟩
  | some vca =>
  cases pa with
  | none =>
      exact ⟨"premiumAmount", Or.inr (Or.inr (Or.inl ⟨rfl, rfl⟩)), by simp [createInsurancePolicy],
             by simp [updateInsurancePolicy, hid]⟩
  | some vpa =>
  cases sd with
  | none =>
      exact ⟨"policyStartDate", Or.inr (Or.inr (Or.inr (Or.inl ⟨rfl, rfl⟩))), by simp [createInsurancePolicy],
             by simp [updateInsurancePolicy, hid]⟩
  | some vsd =>
  cases ed with
  | none =>
      exact ⟨"policyEndDate",
             Or.inr (Or.inr (Or.inr (Or.inr (Or.inl ⟨rfl, rfl⟩)))), by simp [createInsurancePolicy],
             by simp [updateInsurancePolicy, hid]⟩
  | some ved =>
  cases cl with
  | none =>
      exact ⟨"isClaimed",
             Or.inr (Or.inr (Or.inr (Or.inr (Or.inr ⟨rfl, rfl⟩)))), by simp [createInsurancePolicy],
             by simp [updateInsurancePolicy, hid]⟩
  | some vcl =>
      rcases hmiss with h | h | h | h | h | h <;> simp at h

/-- C7 witness: a payload lacking `coverageAmount` is rejected by create
and by update on the sample store, which both leave the store unchanged. -/
theorem missing_field_rejected_witness :
    ∃ f, RawPayload.fieldMissing
        ⟨some "alice", none, some 500, some 1000, some 2000, some false⟩ f
      ∧ createInsurancePolicy "alice" "u1" 5
          ⟨some "alice", none, some 500, some 1000, some 2000, some false⟩ sampleStore =
          (.Err (missingFieldMsg f), sampleStore)
      ∧ updateInsurancePolicy "alice" "p1"
          ⟨some "alice", none, some 500, some 1000, some 2000, some false⟩ 9 sampleStore =
          (.Err (missingFieldMsg f), sampleStore) :=
  missing_field_rejected "alice" "u1" "p1" 9
    ⟨some "alice", none, some 500, some 1000, some 2000, some false⟩ sampleStore
    (by decide) (by decide)

/-- C9: every operation except `getAllInsurancePolicies` ignores the caller
identity: with identical store, clock and id-generator inputs, any two
callers obtain the same result and the same resulting store.  In
particular `create` stores `policyHolder` exactly as supplied in the
payload (and persists the record so), and `update`/`delete`/`fileClaim`
succeed on a present id even when the caller is not the record's
`policyHolder`. -/
theorem ops_caller_independent (c₁ c₂ : String) :
    (∀ (freshId : String) (now : Nat) (p : RawPayload) (s : Store),
      createInsurancePolicy c₁ freshId now p s = createInsurancePolicy c₂ freshId now p s)
    ∧ (∀ (id : String) (s : Store),
        getInsurancePolicy c₁ id s = getInsurancePolicy c₂ id s)
    ∧ (∀ (id : String) (p : RawPayload) (now : Nat) (s : Store),
        updateInsurancePolicy c₁ id p now s = updateInsurancePolicy c₂ id p now s)
    ∧ (∀ (id : String) (s : Store),
        deleteInsurancePolicy c₁ id s = deleteInsurancePolicy c₂ id s)
    ∧ (∀ (id : String) (now : Nat) (s : Store),
        fileClaim c₁ id now s = fileClaim c₂ id now s)
    ∧ (∀ (freshId : String) (now : Nat) (q : LifeInsurancePolicyPayload) (s : Store),
        (createInsurancePolicy c₁ freshId now (RawPayload.ofPayload q) s).1 =
          .Ok (newPolicy freshId now q)
        ∧ (newPolicy freshId now q).policyHolder = q.policyHolder
        ∧ Store.get (createInsurancePolicy c₁ freshId now (RawPayload.ofPayload q) s).2
            freshId = some (newPolicy freshId now q))
    ∧ (∀ (id : String) (s : Store) (r : LifeInsurancePolicy),
        id ≠ "" → Store.get s id = some r → r.policyHolder ≠ c₁ →
        (deleteInsurancePolicy c₁ id s).1 = .Ok r
        ∧ (∀ (q : LifeInsurancePolicyPayload) (now : Nat),
            (updateInsurancePolicy c₁ id (RawPayload.ofPayload q) now s).1 =
              .Ok (mergedPolicy r q now))
        ∧ (r.isClaimed = false → ∀ now : Nat,
            (fileClaim c₁ id now s).1 =
              .Ok { r with isClaimed := true, updatedAt := some now })) := by
  refine ⟨fun _ _ _ _ => rfl, fun _ _ => rfl, fun _ _ _ _ => rfl,
          fun _ _ => rfl, fun _ _ _ => rfl,
          fun freshId now q s => ⟨rfl, rfl, ?_⟩,
          fun id s r hid hget hown => ⟨?_, fun q now => ?_, fun hc now => ?_⟩⟩
  · exact Store.get_insert_self s freshId _
  · simp [deleteInsurancePolicy, hid, hget]
  · simp [updateInsurancePolicy, RawPayload.ofPayload, hid, hget, mergedPolicy]
  · simp [fileClaim, hid, hget, hc]

/-- C9 witness: an unrelated caller ("intruder") gets the same lookup
result as the owner, and can delete the sample record owned by "alice". -/
theorem ops_caller_independent_witness :
    getInsurancePolicy "alice" "p1" sampleStore =
      getInsurancePolicy "intruder" "p1" sampleStore
    ∧ (deleteInsurancePolicy "intruder" "p1" sampleStore).1 = .Ok samplePolicy :=
  ⟨(ops_caller_independent "alice" "intruder").2.1 "p1" sampleStore,
   ((ops_caller_independent "intruder" "alice").2.2.2.2.2.2 "p1" sampleStore
      samplePolicy (by decide) (by decide) (by decide)).1⟩

/-- The id-keyed store invariant: every stored entry's record carries the
key it is stored under as its `id`. -/
def WellFormed (s : Store) : Prop :=
  ∀ kv ∈ s, (kv.2).id = kv.1

theorem Store.get_mem (s : Store) (k : String) (v : LifeInsurancePolicy)
    (h : Store.get s k = some v) : (k, v) ∈ s := by
  induction s with
  | nil => simp [Store.get] at h
  | cons hd tl ih =>
      obtain ⟨k', v'⟩ := hd
      by_cases hk : k' = k
      · subst hk
        simp [Store.get] at h
        simp [h]
      · simp [Store.get, hk] at h
        exact List.mem_cons_of_mem _ (ih h)

theorem WellFormed.insert (s : Store) (k : String) (v : LifeInsurancePolicy)
    (hs : WellFormed s) (hv : v.id = k) : WellFormed (Store.insert s k v) := by
  induction s with
  | nil =>
      intro kv hkv
      simp [Store.insert] at hkv
      simp [hkv, hv]
  | cons hd tl ih =>
      obtain ⟨k', v'⟩ := hd
      have hs' : WellFormed tl := fun kv hkv => hs kv (List.mem_cons_of_mem _ hkv)
      by_cases hk : k' = k
      · intro kv hkv
        simp [Store.insert, hk] at hkv
        rcases hkv with hkv | hkv
        · simp [hkv, hv]
        · exact hs kv (List.mem_cons_of_mem _ hkv)
      · intro kv hkv
        simp only [Store.insert, hk, if_false] at hkv
        rcases List.mem_cons.mp hkv with hkv | hkv
        · exact hs kv (by simp [hkv])
        · exact ih hs' kv hkv

theorem WellFormed.remove (s : Store) (k : String) (hs : WellFormed s) :
    WellFormed (Store.remove s k) := by
  induction s with
  | nil => intro kv hkv; simp [Store.remove] at hkv
  | cons hd tl ih =>
      obtain ⟨k', v'⟩ := hd
      have hs' : WellFormed tl := fun kv hkv => hs kv (List.mem_cons_of_mem _ hkv)
      by_cases hk : k' = k
      · simpa [Store.remove, hk] using ih hs'
      · intro kv hkv
        simp only [Store.remove, hk, if_false] at hkv
        rcases List.mem_cons.mp hkv with hkv | hkv
        · exact hs kv (by simp [hkv])
        · exact ih hs' kv hkv

/-- One invocation of one of the six registry operations, carrying the
external-collaborator inputs it consumes. -/
inductive Op where
  | create (caller freshId : String) (now : Nat) (p : RawPayload)
  | getOne (caller id : String)
  | getAll (caller : String)
  | update (caller id : String) (p : RawPayload) (now : Nat)
  | delete (caller id : String)
  | claim (caller id : String) (now : Nat)

/-- The store produced by one operation (the two queries are read-only). -/
def applyOp (s : Store) : Op → Store
  | .create c f n p => (createInsurancePolicy c f n p s).2
  | .getOne _ _ => s
  | .getAll _ => s
  | .update c id p n => (updateInsurancePolicy c id p n s).2
  | .delete c id => (deleteInsurancePolicy c id s).2
  | .claim c id n => (fileClaim c id n s).2

/-- The store reached from the empty store by a sequence of operations. -/
def runOps (ops : List Op) : Store := ops.foldl applyOp []

/-- Each operation either leaves the store unchanged, inserts one record
under that record's own id, or removes one key. -/
theorem applyOp_store_shape (s : Store) (op : Op) :
    applyOp s op = s
    ∨ (∃ k v, applyOp s op = Store.insert s k v ∧ v.id = k)
    ∨ (∃ k, applyOp s op = Store.remove s k) := by
  cases op with
  | create c f n p =>
      rcases p with ⟨ph, ca, pa, sd, ed, cl⟩
      cases ph <;> cases ca <;> cases pa <;> cases sd <;> cases ed <;> cases cl <;>
        first
          | exact Or.inl rfl
          | exact Or.inr (Or.inl ⟨_, _, rfl, rfl⟩)
  | getOne c id => exact Or.inl rfl
  | getAll c => exact Or.inl rfl
  | update c id p n =>
      by_cases hid : id = ""
      · exact Or.inl (by simp [applyOp, updateInsurancePolicy, hid])
      · rcases p with ⟨ph, ca, pa, sd, ed, cl⟩
        cases hg : Store.get s id with
        | none =>
            cases ph <;> cases ca <;> cases pa <;> cases sd <;> cases ed <;> cases cl <;>
              exact Or.inl (by simp [applyOp, updateInsurancePolicy, hid, hg])
        | some r =>
            cases ph with
            | none => exact Or.inl (by simp [applyOp, updateInsurancePolicy, hid, hg])
            | some vph =>
            cases ca with
            | none => exact Or.inl (by simp [applyOp, updateInsurancePolicy, hid, hg])
            | some vca =>
            cases pa with
            | none => exact Or.inl (by simp [applyOp, updateInsurancePolicy, hid, hg])
            | some vpa =>
            cases sd with
            | none => exact Or.inl (by simp [applyOp, updateInsurancePolicy, hid, hg])
            | some vsd =>
            cases ed with
            | none => exact Or.inl (by simp [applyOp, updateInsurancePolicy, hid, hg])
            | some ved =>
            cases cl with
            | none => exact Or.inl (by simp [applyOp, updateInsurancePolicy, hid, hg])
            | some vcl =>
                refine Or.inr (Or.inl ⟨r.id,
                  { r with policyHolder := vph, coverageAmount := vca,
                           premiumAmount := vpa, policyStartDate := vsd,
                           policyEndDate := ved, isClaimed := vcl,
                           updatedAt := some n }, ?_, rfl⟩)
                simp [applyOp, updateInsurancePolicy, hid, hg]
  | delete c id =>
      by_cases hid : id = ""
      · exact Or.inl (by simp [applyOp, deleteInsurancePolicy, hid])
      · cases hg : Store.get s id with
        | none => exact Or.inl (by simp [applyOp, deleteInsurancePolicy, hid, hg])
        | some r =>
            exact Or.inr (Or.inr ⟨id,
              by simp [applyOp, deleteInsurancePolicy, hid, hg]⟩)
  | claim c id n =>
      by_cases hid : id = ""
      · exact Or.inl (by simp [applyOp, fileClaim, hid])
      · cases hg : Store.get s id with
        | none => exact Or.inl (by simp [applyOp, fileClaim, hid, hg])
        | some r =>
            by_cases hc : r.isClaimed
            · exact Or.inl (by simp [applyOp, fileClaim, hid, hg, hc])
            · refine Or.inr (Or.inl ⟨r.id,
                { r with isClaimed := true, updatedAt := some n }, ?_, rfl⟩)
              simp [applyOp, fileClaim, hid, hg, hc]

theorem applyOp_wellFormed (s : Store) (op : Op) (hs : WellFormed s) :
    WellFormed (applyOp s op) := by
  rcases applyOp_store_shape s op with h | ⟨k, v, h, hv⟩ | ⟨k, h⟩ <;> rw [h]
  exacts [hs, WellFormed.insert s k v hs hv, WellFormed.remove s k hs]

/-- C10: every store reachable from the empty store by a sequence of the
six operations is well-formed — each entry's record has its `id` equal to
the key it is stored under — because `create`, `update` and `fileClaim`
each insert the record under the record's own id. -/
theorem reachable_store_id_keyed (ops : List Op) :
    WellFormed (runOps ops)
    ∧ ∀ (k : String) (r : LifeInsurancePolicy),
        Store.get (runOps ops) k = some r → r.id = k := by
  have main : WellFormed (runOps ops) := by
    rw [runOps]
    have general : ∀ (l : List Op) (s : Store), WellFormed s →
        WellFormed (l.foldl applyOp s) := by
      intro l
      induction l with
      | nil => intro s hs; simpa using hs
      | cons op rest ih =>
          intro s hs
          exact ih (applyOp s op) (applyOp_wellFormed s op hs)
    exact general ops [] (by intro kv hkv; simp at hkv)
  exact ⟨main, fun k r hget => main (k, r) (Store.get_mem _ k r hget)⟩

/-- C10 witness: after a create followed by a claim filing, the record
stored under the generated id "u1" carries id "u1". -/
theorem reachable_store_id_keyed_witness :
    ({ newPolicy "u1" 5 alicePayload with
        isClaimed := true, updatedAt := some 7 } : LifeInsurancePolicy).id = "u1" :=
  (reachable_store_id_keyed
      [Op.create "alice" "u1" 5 (RawPayload.ofPayload alicePayload),
       Op.claim "alice" "u1" 7]).2 "u1"
    { newPolicy "u1" 5 alicePayload with isClaimed := true, updatedAt := some 7 }
    (by decide)

end LifeInsurance
